import Mathlib

/-!
# Verification of the AsTeRICS-Grid-Helper HTTP-to-Serial bridge

Shallow embedding of `src/interaction/http-serial-bridge.py` and proofs about
it.  Python `bytes` values are modelled as `List Nat` (one element per byte),
Python `str` values as `List Nat` of Unicode code points (or as Lean `String`
where only whole-string equality matters), wall-clock durations as `Nat`
milliseconds, and each lock-protected block of the source as one atomic
transition of a small labelled transition system.
-/

set_option autoImplicit false

namespace Bridge

/-! ## Byte- and text-level utilities (Python `bytes.strip`, `str.rstrip`, `str.lower`) -/

/-- The byte values Python's argument-less `bytes.strip` removes:
space, tab, newline, carriage return, vertical tab, form feed. -/
def isPyByteSpace (b : Nat) : Bool :=
  b == 32 || b == 9 || b == 10 || b == 13 || b == 11 || b == 12

/-- Python `bytes.strip()` (no argument): drop ASCII whitespace from both ends. -/
def pyStrip (l : List Nat) : List Nat :=
  ((l.dropWhile isPyByteSpace).reverse.dropWhile isPyByteSpace).reverse

/-- Is this code point (or byte) a carriage return or line feed? -/
def isCRLF (c : Nat) : Bool := c == 13 || c == 10

/-- Python `str.rstrip("\r\n")`: drop all trailing CR and LF elements.  Used
both on code-point sequences and on byte sequences (CR and LF are the same
values at both levels). -/
def rstripCRLF (l : List Nat) : List Nat :=
  (l.reverse.dropWhile isCRLF).reverse

/-! ## UTF-8 (Python `bytes.decode("utf-8")` / `str.encode("utf-8")`)

Python's strict UTF-8 codec accepts exactly the well-formed encodings:
no overlong forms, no surrogates, no code points above `0x10FFFF`. -/

/-- UTF-8 encoding of a single code point (scalar values only; every code
point produced by `utf8Decode1` is one). -/
def utf8EncodeChar (c : Nat) : List Nat :=
  if c < 0x80 then [c]
  else if c < 0x800 then [0xC0 + c / 0x40, 0x80 + c % 0x40]
  else if c < 0x10000 then
    [0xE0 + c / 0x1000, 0x80 + c / 0x40 % 0x40, 0x80 + c % 0x40]
  else
    [0xF0 + c / 0x40000, 0x80 + c / 0x1000 % 0x40, 0x80 + c / 0x40 % 0x40, 0x80 + c % 0x40]

/-- UTF-8 encoding of a code-point sequence (Python `str.encode("utf-8")`). -/
def utf8Encode (cs : List Nat) : List Nat :=
  (cs.map utf8EncodeChar).flatten

/-- Is `b` a UTF-8 continuation byte (`0x80..0xBF`)? -/
def isCont (b : Nat) : Bool := 0x80 ≤ b && b < 0xC0

/-- Decode one UTF-8 sequence from the front of the byte list: the code point
and the remaining bytes, or `none` on ill-formed input (stray continuation
byte, truncated sequence, overlong form, surrogate, code point above
`0x10FFFF`). -/
def utf8Decode1 : List Nat → Option (Nat × List Nat)
  | [] => none
  | b1 :: rest =>
    if b1 < 0x80 then some (b1, rest)
    else if 0xC2 ≤ b1 && b1 < 0xE0 then
      match rest with
      | b2 :: rest2 =>
        if isCont b2 then some ((b1 - 0xC0) * 0x40 + (b2 - 0x80), rest2) else none
      | [] => none
    else if 0xE0 ≤ b1 && b1 < 0xF0 then
      match rest with
      | b2 :: b3 :: rest3 =>
        if isCont b2 && isCont b3 then
          if 0x800 ≤ (b1 - 0xE0) * 0x1000 + (b2 - 0x80) * 0x40 + (b3 - 0x80) &&
              !(0xD800 ≤ (b1 - 0xE0) * 0x1000 + (b2 - 0x80) * 0x40 + (b3 - 0x80) &&
                (b1 - 0xE0) * 0x1000 + (b2 - 0x80) * 0x40 + (b3 - 0x80) < 0xE000) then
            some ((b1 - 0xE0) * 0x1000 + (b2 - 0x80) * 0x40 + (b3 - 0x80), rest3)
          else none
        else none
      | _ => none
    else if 0xF0 ≤ b1 && b1 < 0xF5 then
      match rest with
      | b2 :: b3 :: b4 :: rest4 =>
        if isCont b2 && isCont b3 && isCont b4 then
          if 0x10000 ≤ (b1 - 0xF0) * 0x40000 + (b2 - 0x80) * 0x1000 + (b3 - 0x80) * 0x40 + (b4 - 0x80) &&
              (b1 - 0xF0) * 0x40000 + (b2 - 0x80) * 0x1000 + (b3 - 0x80) * 0x40 + (b4 - 0x80) < 0x110000 then
            some ((b1 - 0xF0) * 0x40000 + (b2 - 0x80) * 0x1000 + (b3 - 0x80) * 0x40 + (b4 - 0x80), rest4)
          else none
        else none
      | _ => none
    else none

/-- Repeatedly decode UTF-8 sequences; `fuel` bounds the number of code points
(each sequence consumes at least one byte, so `fuel = length` is enough). -/
def utf8DecodeAux : Nat → List Nat → Option (List Nat)
  | _, [] => some []
  | 0, _ :: _ => none
  | fuel + 1, l =>
    match utf8Decode1 l with
    | some (c, rest) =>
      match utf8DecodeAux fuel rest with
      | some cs => some (c :: cs)
      | none => none
    | none => none

/-- Strict UTF-8 decoding (Python `bytes.decode("utf-8")`): the code-point
sequence, or `none` on any ill-formed input. -/
def utf8Decode (l : List Nat) : Option (List Nat) :=
  utf8DecodeAux l.length l

/-! ## Protocol constants (source lines 46-55) -/

/-- `AT_COMMAND = b"AT\n"`. -/
def AT_COMMAND : List Nat := [65, 84, 10]

/-- `EXPECTED_RESPONSE = b"OK\n"`. -/
def EXPECTED_RESPONSE : List Nat := [79, 75, 10]

/-- `OPEN_TIMEOUT = 1.0` seconds, in milliseconds. -/
def OPEN_TIMEOUT_MS : Nat := 1000

/-- The `p.join(0.2)` wait after `p.terminate()`, in milliseconds. -/
def TERMINATE_JOIN_MS : Nat := 200

/-- The `parent_conn.poll(0.1)` window, in milliseconds. -/
def POLL_MS : Nat := 100

/-- `SKIP_PATTERNS = ["Bluetooth", "BTHENUM", "RFCOMM", "BlueSoleil"]`. -/
def SKIP_PATTERNS : List (List Char) :=
  ["Bluetooth".toList, "BTHENUM".toList, "RFCOMM".toList, "BlueSoleil".toList]

/-! ## Probe worker response comparison (`_port_test_worker`, lines 84-108)

The worker reads one line `resp` and reports success via
`resp == expected_response or (resp and resp.strip() == expected_response.strip())`.
Python truthiness of `bytes` is non-emptiness. -/

/-- The success flag `_port_test_worker` sends for a read response `resp`
against an expected response `expected`. -/
def workerSuccess (resp expected : List Nat) : Bool :=
  resp == expected || (!resp.isEmpty && pyStrip resp == pyStrip expected)

/-- The probe-worker decision specialised to the bridge's expected
response `b"OK\n"`. -/
def probeSuccess (resp : List Nat) : Bool :=
  workerSuccess resp EXPECTED_RESPONSE

/-! ## Port filtering (`port_looks_like_bluetooth`, lines 74-81) -/

/-- One enumerated serial port, as returned by
`serial.tools.list_ports.comports()`; the fields the bridge reads.  A `None`
attribute in Python arrives here as the empty string (the source substitutes
`""` via `getattr(..., "")` and `filter(None, ...)` then drops it). -/
structure PortInfo where
  device : List Char
  description : List Char
  hwid : List Char
  manufacturer : List Char
deriving DecidableEq

/-- Python `" ".join(parts)`. -/
def joinSpace : List (List Char) → List Char
  | [] => []
  | [p] => p
  | p :: ps => p ++ ' ' :: joinSpace ps

/-- Python `str.lower()` (the patterns and port strings compared here are
ASCII, where `Char.toLower` agrees with Python). -/
def lowerStr (s : List Char) : List Char := s.map Char.toLower

/-- The haystack `txt` built by `port_looks_like_bluetooth`:
`" ".join(filter(None, [description, hwid, manufacturer])).lower()`. -/
def portText (p : PortInfo) : List Char :=
  lowerStr (joinSpace (([p.description, p.hwid, p.manufacturer]).filter (fun s => !s.isEmpty)))

/-- Python `needle in hay` on strings: `needle` occurs contiguously in `hay`. -/
def containsSub (needle : List Char) : List Char → Bool
  | [] => needle.isEmpty
  | a :: t => needle.isPrefixOf (a :: t) || containsSub needle t

/-- `port_looks_like_bluetooth`:
`any(pat.lower() in txt for pat in SKIP_PATTERNS)`. -/
def port_looks_like_bluetooth (p : PortInfo) : Bool :=
  SKIP_PATTERNS.any (fun pat => containsSub (lowerStr pat) (portText p))

/-! ## Connection state and HTTP handler (lines 57-59, 190-263) -/

/-- The Python `serial.Serial` object as the bridge observes it: the port
name and the `is_open` flag. -/
structure SerH where
  port : String
  isOpen : Bool
deriving DecidableEq

/-- The check `ser is not None and ser.is_open` (and the negated form
`ser is None or not ser.is_open` in `do_POST`). -/
def connOpen : Option SerH → Bool
  | none => false
  | some h => h.isOpen

/-- `int(self.headers.get("Content-Length", "0"))` then
`self.rfile.read(content_length) if content_length > 0 else b""`:
a missing header reads as `0`; a non-positive value yields the empty body.
(`contentLength` is the parsed integer; a non-numeric header would raise in
`int()` before this logic and is outside this model.) -/
def bodyFromRequest (contentLength : Option Int) (stream : List Nat) : List Nat :=
  let cl := contentLength.getD 0
  if 0 < cl then stream.take cl.toNat else []

/-- The frame `do_POST` sends to the device for a request body:
`body_text = body_bytes.decode("utf-8").rstrip("\r\n")` when the body decodes
(`to_send = (body_text + "\n").encode("utf-8")`), otherwise
`to_send = body_bytes + b"\n"`. -/
def toSendBytes (body : List Nat) : List Nat :=
  match utf8Decode body with
  | some cps => utf8Encode (rstripCRLF cps ++ [10])
  | none => body ++ [10]

/-- Result of one `do_POST` call.  `written` is the frame completely delivered
to the device (`none` when nothing was delivered: no connection, or the write
raised).  `newState` is `_serial_instance` afterwards.  `cachedOpenAfter` is
the `is_open` flag of the handler's cached `ser` reference afterwards (`none`
when the cached reference was `None`). -/
structure PostOut where
  status : Nat
  respBody : String
  written : Option (List Nat)
  newState : Option SerH
  cachedOpenAfter : Option Bool
deriving DecidableEq

/-- `COMBridgeHandler.do_POST` (lines 203-252).  `st` is the value of
`_serial_instance` read under the lock; `writeOk` says whether
`ser.write(to_send); ser.flush()` succeeds.  On write failure the handler
closes the cached handle and clears `_serial_instance` under the lock. -/
def do_POST (st : Option SerH) (contentLength : Option Int) (stream : List Nat)
    (writeOk : Bool) : PostOut :=
  let body := bodyFromRequest contentLength stream
  if connOpen st then
    if writeOk then
      { status := 200, respBody := "Sent to device\n", written := some (toSendBytes body),
        newState := st, cachedOpenAfter := some true }
    else
      { status := 500, respBody := "Failed to write to device\n", written := none,
        newState := none, cachedOpenAfter := some false }
  else
    { status := 503, respBody := "Device not detected yet. Try again later.\n",
      written := none, newState := st, cachedOpenAfter := st.map SerH.isOpen }

/-- `COMBridgeHandler.do_GET` (lines 254-263): always 200; body names the
connected port or reports no device. -/
def do_GET (st : Option SerH) : Nat × String :=
  (200,
    match st with
    | some h => if h.isOpen then "Device connected on " ++ h.port ++ "\n" else "Device not connected\n"
    | none => "Device not connected\n")

/-- The device-side frames produced by two consecutive successful POSTs of the
same body (for the idempotent-framing part of the spec). -/
def framesOfTwoPosts (st : Option SerH) (b : List Nat) : List (List Nat) :=
  let o1 := do_POST st (some (b.length : Int)) b true
  let o2 := do_POST o1.newState (some (b.length : Int)) b true
  o1.written.toList ++ o2.written.toList

/-! ## Scanner loop (`serial_scanner`, lines 136-184) -/

/-- What one iteration of the `while not _stop_event.is_set()` body did:
whether it slept in the connected branch, whether it enumerated ports, which
ports it probed (in order), and the handle it installed, if any. -/
structure ScanIter where
  sleptConnected : Bool
  enumerated : Bool
  probed : List PortInfo
  installed : Option SerH
deriving DecidableEq

/-- The per-port loop (lines 154-178): skip Bluetooth-looking ports without
probing; probe the rest in order; on probe success open a persistent
connection (`openOk`) and stop, or — if that open fails — log and continue.
Returns the ports probed, in order, and the installed handle, if any. -/
def scanPorts (probeOk openOk : PortInfo → Bool) : List PortInfo → List PortInfo × Option SerH
  | [] => ([], none)
  | p :: ps =>
    if port_looks_like_bluetooth p then scanPorts probeOk openOk ps
    else if probeOk p then
      if openOk p then ([p], some ⟨String.mk p.device, true⟩)
      else
        let r := scanPorts probeOk openOk ps
        (p :: r.1, r.2)
    else
      let r := scanPorts probeOk openOk ps
      (p :: r.1, r.2)

/-- One iteration of the scanner loop (lines 140-182).  `st` is the
`_serial_instance` value read under the lock at the top of the iteration;
`ports` the enumeration result; `probeOk`/`openOk` the outcomes of
`try_port_with_timeout` and of the persistent `serial.Serial` open. -/
def scannerIteration (st : Option SerH) (ports : List PortInfo)
    (probeOk openOk : PortInfo → Bool) : ScanIter :=
  if connOpen st then
    { sleptConnected := true, enumerated := false, probed := [], installed := none }
  else
    { sleptConnected := false, enumerated := true,
      probed := (scanPorts probeOk openOk ports).1,
      installed := (scanPorts probeOk openOk ports).2 }

/-! ## Probe isolation and timing (`try_port_with_timeout`, lines 111-130)

Durations are milliseconds.  The `multiprocessing.Pipe` connection follows
CPython semantics: once the child process has exited, its end of the pipe is
closed (the worker's `finally: conn.close()`, and process exit itself, close
it), so `Connection.poll` reports readable — either buffered data or
end-of-file — and `Connection.recv` raises `EOFError` when the pipe is closed
and empty. -/

/-- Python exceptions this model distinguishes. -/
inductive PyExn where
  | eofError
deriving DecidableEq

/-- The parent's end of the `Pipe` after the worker is done. -/
structure PipeState where
  buffered : Option (Bool × String)
  senderClosed : Bool
deriving DecidableEq

/-- `Connection.poll`: readable when data is buffered or the other end is
closed (EOF also counts as readable). -/
def pipePoll (p : PipeState) : Bool := p.buffered.isSome || p.senderClosed

/-- `Connection.recv`: the buffered message, or `EOFError` when the other end
is closed and nothing is buffered.  (Only called after `pipePoll` is true, so
the blocking case does not arise.) -/
def pipeRecv (p : PipeState) : Except PyExn (Bool × String) :=
  match p.buffered with
  | some m => .ok m
  | none => .error .eofError

/-- Behaviour of one `_port_test_worker` subprocess: when it exits (`none` =
hangs forever, e.g. a driver blocked in `open`), and the result it managed to
`conn.send` before exiting (`none` = exited without sending). -/
structure WorkerRun where
  finishTime : Option Nat
  sent : Option (Bool × String)
deriving DecidableEq

/-- The parent's pipe end once the worker subprocess has exited: whatever was
sent is buffered, and the sender side is closed. -/
def workerPipe (w : WorkerRun) : PipeState :=
  { buffered := w.sent, senderClosed := true }

/-- `try_port_with_timeout` (lines 111-130): `p.join(open_timeout)`; if still
alive, `p.terminate(); p.join(0.2)` and report a timeout failure; otherwise
`parent_conn.poll(0.1)` then `recv`.  Returns the outcome (or the propagated
exception) and an upper bound on the elapsed wall-clock time in milliseconds
(each blocking primitive is charged its full timeout). -/
def try_port_with_timeout (w : WorkerRun) (portName : String) (openTimeoutMs : Nat) :
    Except PyExn (Bool × String) × Nat :=
  match w.finishTime with
  | none =>
    (.ok (false, "Timeout opening " ++ portName), openTimeoutMs + TERMINATE_JOIN_MS)
  | some ft =>
    if openTimeoutMs < ft then
      (.ok (false, "Timeout opening " ++ portName), openTimeoutMs + TERMINATE_JOIN_MS)
    else
      let pipe := workerPipe w
      if pipePoll pipe then (pipeRecv pipe, ft)
      else (.ok (false, "No result for " ++ portName), ft + POLL_MS)

/-! ## Connection-state transition system (claim about lines 170-178, 240-252, 288-295)

Handles are numbered; `openh` records which handle objects are currently
open.  Each constructor is one `with _serial_lock:` block of the source; the
transitions are atomic because the source performs them under the lock. -/

/-- The process-wide connection state: `_serial_instance` (by handle number)
plus the open/closed status of every handle object ever created. -/
structure ConnState where
  conn : Option Nat
  openh : Nat → Bool

/-- Start of the process: no handle stored, none open. -/
def initialConn : ConnState := { conn := none, openh := fun _ => false }

/-- The atomic lock-protected operations on `_serial_instance`:

* `install` (lines 172-174): the scanner opens a fresh handle and stores it.
  The scanner only reaches this after observing no open stored handle (lines
  142-146), and it is the only thread that ever installs a handle, so the
  stored handle is still not open at install time.
* `postWriteFail` (lines 242-247): on a write failure the handler closes its
  cached handle `c` (whatever handle it read earlier — possibly already
  replaced) and clears `_serial_instance`, in one lock block.
* `shutdownClose` (lines 288-295): close the stored handle, if any, and clear
  the field, in one lock block. -/
inductive ConnStep : ConnState → ConnState → Prop
  | install (s : ConnState) (h : Nat) (hfresh : s.openh h = false)
      (hnoopen : ∀ h0, s.conn = some h0 → s.openh h0 = false) :
      ConnStep s { conn := some h, openh := Function.update s.openh h true }
  | postWriteFail (s : ConnState) (c : Nat) :
      ConnStep s { conn := none, openh := Function.update s.openh c false }
  | shutdownClose (s : ConnState) :
      ConnStep s { conn := none,
                   openh := fun n => if s.conn = some n then false else s.openh n }

/-- States reachable from process start through the lock-protected
operations. -/
inductive ReachableConn : ConnState → Prop
  | init : ReachableConn initialConn
  | step {s t : ConnState} : ReachableConn s → ConnStep s t → ReachableConn t


/-! ## Helper lemmas: UTF-8 round trip and rstrip/encode commutation -/

theorem utf8Decode1_encode {l : List Nat} {c : Nat} {rest : List Nat}
    (h : utf8Decode1 l = some (c, rest)) :
    utf8EncodeChar c ++ rest = l ∧ rest.length < l.length := by
  unfold utf8Decode1 at h
  split at h
  · exact Option.noConfusion h
  rename_i b1 t
  split at h
  · rename_i h1
    simp only [Option.some.injEq, Prod.mk.injEq] at h
    obtain ⟨rfl, rfl⟩ := h
    refine ⟨?_, by simp⟩
    simp [utf8EncodeChar, h1]
  rename_i h1
  split at h
  · rename_i h2
    split at h
    · rename_i b2 rest2
      split at h
      · rename_i hc2
        simp only [Option.some.injEq, Prod.mk.injEq] at h
        obtain ⟨rfl, rfl⟩ := h
        simp only [Bool.and_eq_true, decide_eq_true_eq] at h2
        simp only [isCont, Bool.and_eq_true, decide_eq_true_eq] at hc2
        refine ⟨?_, by simp only [List.length_cons]; omega⟩
        have e : utf8EncodeChar ((b1 - 0xC0) * 0x40 + (b2 - 0x80)) = [b1, b2] := by
          unfold utf8EncodeChar
          rw [if_neg (by omega), if_pos (by omega)]
          have e1 : 0xC0 + ((b1 - 0xC0) * 0x40 + (b2 - 0x80)) / 0x40 = b1 := by omega
          have e2 : 0x80 + ((b1 - 0xC0) * 0x40 + (b2 - 0x80)) % 0x40 = b2 := by omega
          rw [e1, e2]
        rw [e]; rfl
      · exact Option.noConfusion h
    · exact Option.noConfusion h
  rename_i h2
  split at h
  · rename_i h3
    split at h
    · rename_i b2 b3 rest3
      split at h
      · rename_i hc
        split at h
        · rename_i hv
          simp only [Option.some.injEq, Prod.mk.injEq] at h
          obtain ⟨rfl, rfl⟩ := h
          simp only [Bool.and_eq_true, decide_eq_true_eq] at h3
          simp only [isCont, Bool.and_eq_true, decide_eq_true_eq] at hc
          simp only [Bool.and_eq_true, decide_eq_true_eq, Bool.not_eq_true',
            Bool.and_eq_false_iff, decide_eq_false_iff_not] at hv
          refine ⟨?_, by simp only [List.length_cons]; omega⟩
          obtain ⟨⟨hb2, hb2b⟩, hb3, hb3b⟩ := hc
          have e : utf8EncodeChar ((b1 - 0xE0) * 0x1000 + (b2 - 0x80) * 0x40 + (b3 - 0x80))
              = [b1, b2, b3] := by
            unfold utf8EncodeChar
            rw [if_neg (by omega), if_neg (by omega), if_pos (by omega)]
            have e1 : 0xE0 + ((b1 - 0xE0) * 0x1000 + (b2 - 0x80) * 0x40 + (b3 - 0x80)) / 0x1000 = b1 := by
              omega
            have e2 : 0x80 + ((b1 - 0xE0) * 0x1000 + (b2 - 0x80) * 0x40 + (b3 - 0x80)) / 0x40 % 0x40 = b2 := by
              omega
            have e3 : 0x80 + ((b1 - 0xE0) * 0x1000 + (b2 - 0x80) * 0x40 + (b3 - 0x80)) % 0x40 = b3 := by
              omega
            rw [e1, e2, e3]
          rw [e]; rfl
        · exact Option.noConfusion h
      · exact Option.noConfusion h
    · exact Option.noConfusion h
  rename_i h3
  split at h
  · rename_i h4
    split at h
    · rename_i b2 b3 b4 rest4
      split at h
      · rename_i hc
        split at h
        · rename_i hv
          simp only [Option.some.injEq, Prod.mk.injEq] at h
          obtain ⟨rfl, rfl⟩ := h
          simp only [Bool.and_eq_true, decide_eq_true_eq] at h4
          simp only [isCont, Bool.and_eq_true, decide_eq_true_eq] at hc
          simp only [Bool.and_eq_true, decide_eq_true_eq] at hv
          refine ⟨?_, by simp only [List.length_cons]; omega⟩
          obtain ⟨⟨⟨hb2, hb2b⟩, hb3, hb3b⟩, hb4, hb4b⟩ := hc
          have e : utf8EncodeChar
              ((b1 - 0xF0) * 0x40000 + (b2 - 0x80) * 0x1000 + (b3 - 0x80) * 0x40 + (b4 - 0x80))
              = [b1, b2, b3, b4] := by
            unfold utf8EncodeChar
            rw [if_neg (by omega), if_neg (by omega), if_neg (by omega)]
            have e1 : 0xF0 + ((b1 - 0xF0) * 0x40000 + (b2 - 0x80) * 0x1000 + (b3 - 0x80) * 0x40 + (b4 - 0x80)) / 0x40000 = b1 := by
              omega
            have e2 : 0x80 + ((b1 - 0xF0) * 0x40000 + (b2 - 0x80) * 0x1000 + (b3 - 0x80) * 0x40 + (b4 - 0x80)) / 0x1000 % 0x40 = b2 := by
              omega
            have e3 : 0x80 + ((b1 - 0xF0) * 0x40000 + (b2 - 0x80) * 0x1000 + (b3 - 0x80) * 0x40 + (b4 - 0x80)) / 0x40 % 0x40 = b3 := by
              omega
            have e4 : 0x80 + ((b1 - 0xF0) * 0x40000 + (b2 - 0x80) * 0x1000 + (b3 - 0x80) * 0x40 + (b4 - 0x80)) % 0x40 = b4 := by
              omega
            rw [e1, e2, e3, e4]
          rw [e]; rfl
        · exact Option.noConfusion h
      · exact Option.noConfusion h
    · exact Option.noConfusion h
  exact Option.noConfusion h

theorem utf8Encode_append (a b : List Nat) :
    utf8Encode (a ++ b) = utf8Encode a ++ utf8Encode b := by
  simp [utf8Encode]

theorem utf8DecodeAux_encode : ∀ (fuel : Nat) (l cs : List Nat),
    l.length ≤ fuel → utf8DecodeAux fuel l = some cs → utf8Encode cs = l := by
  intro fuel
  induction fuel with
  | zero =>
    intro l cs hlen h
    match l with
    | [] =>
      simp only [utf8DecodeAux, Option.some.injEq] at h
      subst h; rfl
  | succ fuel ih =>
    intro l cs hlen h
    match l with
    | [] =>
      simp only [utf8DecodeAux, Option.some.injEq] at h
      subst h; rfl
    | b :: t =>
      unfold utf8DecodeAux at h
      cases hd : utf8Decode1 (b :: t) with
      | none => rw [hd] at h; exact Option.noConfusion h
      | some p =>
        obtain ⟨c0, rest⟩ := p
        rw [hd] at h
        obtain ⟨henc, hlt⟩ := utf8Decode1_encode hd
        dsimp only at h
        cases haux : utf8DecodeAux fuel rest with
        | none => rw [haux] at h; exact Option.noConfusion h
        | some cs' =>
          rw [haux] at h
          simp only [Option.some.injEq] at h
          subst h
          have : utf8Encode cs' = rest := by
            apply ih rest cs' _ haux
            simp only [List.length_cons] at hlen hlt
            omega
          calc utf8Encode (c0 :: cs') = utf8EncodeChar c0 ++ utf8Encode cs' := by
                simp [utf8Encode]
          _ = utf8EncodeChar c0 ++ rest := by rw [this]
          _ = b :: t := henc

theorem utf8Decode_encode {l cs : List Nat} (h : utf8Decode l = some cs) :
    utf8Encode cs = l :=
  utf8DecodeAux_encode l.length l cs le_rfl h

theorem rstripCRLF_snoc (l : List Nat) (y : Nat) :
    rstripCRLF (l ++ [y]) = if isCRLF y then rstripCRLF l else l ++ [y] := by
  by_cases hc : isCRLF y
  · simp [rstripCRLF, List.dropWhile_cons, hc]
  · simp [rstripCRLF, List.dropWhile_cons, hc]

theorem utf8EncodeChar_of_isCRLF {c : Nat} (hc : isCRLF c = true) :
    utf8EncodeChar c = [c] := by
  simp only [isCRLF, Bool.or_eq_true, beq_iff_eq] at hc
  rcases hc with rfl | rfl <;> rfl

theorem isCRLF_eq_false_iff {x : Nat} : isCRLF x = false ↔ x ≠ 13 ∧ x ≠ 10 := by
  simp only [isCRLF, Bool.or_eq_false_iff, beq_eq_false_iff_ne, ne_eq]

theorem isCRLF_high {x : Nat} (hx : 0x80 ≤ x) : isCRLF x = false := by
  rw [isCRLF_eq_false_iff]
  omega

theorem utf8EncodeChar_last_not_CRLF {c : Nat} (hc : isCRLF c = false) :
    ∃ l' b, utf8EncodeChar c = l' ++ [b] ∧ isCRLF b = false := by
  unfold utf8EncodeChar
  split_ifs with h1 h2 h3
  · exact ⟨[], c, rfl, hc⟩
  · exact ⟨[0xC0 + c / 0x40], 0x80 + c % 0x40, rfl, isCRLF_high (by omega)⟩
  · exact ⟨[0xE0 + c / 0x1000, 0x80 + c / 0x40 % 0x40], 0x80 + c % 0x40, rfl,
      isCRLF_high (by omega)⟩
  · exact ⟨[0xF0 + c / 0x40000, 0x80 + c / 0x1000 % 0x40, 0x80 + c / 0x40 % 0x40],
      0x80 + c % 0x40, rfl, isCRLF_high (by omega)⟩

theorem utf8Encode_singleton (c : Nat) : utf8Encode [c] = utf8EncodeChar c := by
  simp [utf8Encode]

theorem rstripCRLF_utf8Encode : ∀ cs : List Nat,
    rstripCRLF (utf8Encode cs) = utf8Encode (rstripCRLF cs) := by
  intro cs
  induction cs using List.reverseRecOn with
  | nil => rfl
  | append_singleton cs c ih =>
    rw [utf8Encode_append, utf8Encode_singleton, rstripCRLF_snoc]
    by_cases hc : isCRLF c
    · rw [if_pos hc, utf8EncodeChar_of_isCRLF hc, rstripCRLF_snoc, if_pos hc, ih]
    · rw [if_neg hc]
      obtain ⟨l', b, he, hb⟩ := utf8EncodeChar_last_not_CRLF (by simpa using hc)
      rw [he, ← List.append_assoc, rstripCRLF_snoc, if_neg (by simp [hb])]
      rw [utf8Encode_append, utf8Encode_singleton, he, List.append_assoc]



/-! ## Claim C1: probe handshake acceptance -/

/-- C1 counterexample: the claim's boundary table says a bare `OK` response
(no newline) fails, but `_port_test_worker` accepts it — `b"OK"` is truthy and
`b"OK".strip() == b"OK\n".strip()`. -/
theorem probe_accepts_bare_OK_counterexample : probeSuccess [79, 75] = true := by decide

/-- C1 (amended): the probe succeeds exactly when the response is non-empty
and equals `OK` after stripping whitespace; in the boundary table, `OK\n` and
`OK` succeed, while `ok\n`, `OKAY\n` and the empty response fail. -/
theorem probeSuccess_iff_poststrip_OK :
    (∀ resp : List Nat, probeSuccess resp = true ↔ resp ≠ [] ∧ pyStrip resp = [79, 75]) ∧
    probeSuccess [79, 75, 10] = true ∧ probeSuccess [79, 75] = true ∧
    probeSuccess [111, 107, 10] = false ∧ probeSuccess [79, 75, 65, 89, 10] = false ∧
    probeSuccess [] = false := by
  refine ⟨?_, by decide, by decide, by decide, by decide, by decide⟩
  intro resp
  unfold probeSuccess workerSuccess
  simp only [Bool.or_eq_true, Bool.and_eq_true, beq_iff_eq, Bool.not_eq_true',
    List.isEmpty_eq_false, ne_eq]
  constructor
  · rintro (rfl | ⟨hne, heq⟩)
    · exact ⟨by decide, by decide⟩
    · exact ⟨hne, by rw [heq]; decide⟩
  · rintro ⟨hne, heq⟩
    exact Or.inr ⟨hne, by rw [heq]; decide⟩

/-! ## Claim C5: POST with no open connection -/

/-- C5: while no connection is open, POST replies 503 with the exact body
`Device not detected yet. Try again later.\n`, delivers nothing to any
device, and leaves the connection state unchanged. -/
theorem post_without_connection_503 (st : Option SerH) (cl : Option Int)
    (stream : List Nat) (writeOk : Bool) (h : connOpen st = false) :
    (do_POST st cl stream writeOk).status = 503 ∧
    (do_POST st cl stream writeOk).respBody = "Device not detected yet. Try again later.\n" ∧
    (do_POST st cl stream writeOk).written = none ∧
    (do_POST st cl stream writeOk).newState = st := by
  unfold do_POST
  rw [h]
  simp

/-- Witness for C5 at a concrete input (empty state, body `AT`). -/
theorem post_without_connection_503_witness :
    connOpen none = false ∧
    (do_POST none (some 2) [65, 84] true).status = 503 ∧
    (do_POST none (some 2) [65, 84] true).respBody =
      "Device not detected yet. Try again later.\n" ∧
    (do_POST none (some 2) [65, 84] true).written = none ∧
    (do_POST none (some 2) [65, 84] true).newState = none :=
  ⟨rfl, post_without_connection_503 none (some 2) [65, 84] true rfl⟩

/-! ## Claim C8: the scanner never scans while connected -/

/-- C8: in each scanner-loop iteration, the connected case sleeps and
performs no enumeration, no probing and no install, the disconnected case
enumerates, and the two modes are mutually exclusive. -/
theorem scanner_mutually_exclusive_modes (st : Option SerH) (ports : List PortInfo)
    (probeOk openOk : PortInfo → Bool) :
    (scannerIteration st ports probeOk openOk).sleptConnected = connOpen st ∧
    (scannerIteration st ports probeOk openOk).enumerated = !connOpen st ∧
    (connOpen st = true → (scannerIteration st ports probeOk openOk).probed = [] ∧
      (scannerIteration st ports probeOk openOk).installed = none) ∧
    ¬((scannerIteration st ports probeOk openOk).sleptConnected = true ∧
      (scannerIteration st ports probeOk openOk).enumerated = true) := by
  unfold scannerIteration
  by_cases h : connOpen st = true
  · rw [h]
    simp
  · rw [Bool.not_eq_true] at h
    rw [h]
    simp

/-- Witness for C8 at a concrete connected state. -/
theorem scanner_mutually_exclusive_modes_witness :
    connOpen (some ⟨"COM3", true⟩) = true ∧
    (scannerIteration (some ⟨"COM3", true⟩) [] (fun _ => true) (fun _ => true)).probed = [] :=
  ⟨rfl,
    ((scanner_mutually_exclusive_modes (some ⟨"COM3", true⟩) [] (fun _ => true)
      (fun _ => true)).2.2.1 rfl).1⟩

/-! ## Claim C9: missing or non-positive Content-Length -/

/-- C9: a missing, zero or negative Content-Length is treated as an empty
body, and with an open connection and a successful write the device receives
exactly the single newline byte and the client receives 200. -/
theorem post_empty_content_length_sends_newline (st : Option SerH) (cl : Option Int)
    (stream : List Nat) (hconn : connOpen st = true)
    (hcl : cl = none ∨ ∃ v : Int, cl = some v ∧ v ≤ 0) :
    bodyFromRequest cl stream = [] ∧
    (do_POST st cl stream true).written = some [10] ∧
    (do_POST st cl stream true).status = 200 := by
  have hbody : bodyFromRequest cl stream = [] := by
    unfold bodyFromRequest
    rcases hcl with rfl | ⟨v, rfl, hv⟩
    · rfl
    · rw [if_neg (by simpa using hv)]
  refine ⟨hbody, ?_, ?_⟩ <;>
    · unfold do_POST
      rw [hbody, hconn]
      simp [toSendBytes, utf8Decode, utf8DecodeAux, utf8Encode, rstripCRLF, utf8EncodeChar]

/-- Witness for C9: open connection, Content-Length `-5`, non-empty stream. -/
theorem post_empty_content_length_sends_newline_witness :
    connOpen (some ⟨"COM3", true⟩) = true ∧
    (do_POST (some ⟨"COM3", true⟩) (some (-5)) [65, 84] true).written = some [10] ∧
    (do_POST (some ⟨"COM3", true⟩) (some (-5)) [65, 84] true).status = 200 :=
  ⟨rfl,
    (post_empty_content_length_sends_newline (some ⟨"COM3", true⟩) (some (-5)) [65, 84]
      rfl (Or.inr ⟨-5, rfl, by decide⟩)).2⟩

/-! ## Claim C6: write failure tears the connection down -/

/-- C6: when the device write for a POST fails, the handler replies 500 with
body `Failed to write to device\n`, closes its handle and clears the shared
state, a subsequent GET reports `Device not connected`, and the next scanner
iteration enumerates (resumes scanning). -/
theorem post_write_failure_teardown (st : Option SerH) (cl : Option Int)
    (stream : List Nat) (hconn : connOpen st = true) :
    (do_POST st cl stream false).status = 500 ∧
    (do_POST st cl stream false).respBody = "Failed to write to device\n" ∧
    (do_POST st cl stream false).newState = none ∧
    (do_POST st cl stream false).cachedOpenAfter = some false ∧
    (do_GET (do_POST st cl stream false).newState).2 = "Device not connected\n" ∧
    (∀ (ports : List PortInfo) (probeOk openOk : PortInfo → Bool),
      (scannerIteration (do_POST st cl stream false).newState ports probeOk openOk).enumerated
        = true) := by
  have hpost : do_POST st cl stream false =
      { status := 500, respBody := "Failed to write to device\n", written := none,
        newState := none, cachedOpenAfter := some false } := by
    unfold do_POST
    rw [hconn]
    simp
  rw [hpost]
  refine ⟨rfl, rfl, rfl, rfl, rfl, ?_⟩
  intro ports probeOk openOk
  unfold scannerIteration connOpen
  simp

/-- Witness for C6 at a concrete open connection. -/
theorem post_write_failure_teardown_witness :
    connOpen (some ⟨"COM3", true⟩) = true ∧
    (do_POST (some ⟨"COM3", true⟩) (some 2) [65, 84] false).status = 500 ∧
    (do_GET (do_POST (some ⟨"COM3", true⟩) (some 2) [65, 84] false).newState).2 =
      "Device not connected\n" :=
  ⟨rfl,
    (post_write_failure_teardown (some ⟨"COM3", true⟩) (some 2) [65, 84] rfl).1,
    (post_write_failure_teardown (some ⟨"COM3", true⟩) (some 2) [65, 84] rfl).2.2.2.2.1⟩



/-! ## Claim C2: the forwarded frame -/

/-- The body reconstructed from `Content-Length = len(b)` and stream `b` is
`b` itself. -/
theorem bodyFromRequest_exact (b : List Nat) :
    bodyFromRequest (some (b.length : Int)) b = b := by
  unfold bodyFromRequest
  cases b with
  | nil => rfl
  | cons x t =>
    rw [if_pos (by simp [Option.getD])]
    simp

/-- C2 counterexample: for the body `b"AT\n"` the device receives `b"AT\n"`
(the trailing newline is stripped before the single newline is appended), not
`b"AT\n\n"` as the claim's `b ++ newline` framing requires. -/
theorem post_body_trailing_newline_counterexample :
    (do_POST (some ⟨"COM3", true⟩) (some 3) [65, 84, 10] true).written = some [65, 84, 10] ∧
    (do_POST (some ⟨"COM3", true⟩) (some 3) [65, 84, 10] true).written ≠
      some ([65, 84, 10] ++ [10]) := by
  constructor <;> decide

/-- C2 (amended): for every POST body that is valid UTF-8, the frame written
on a successful send is the body with all trailing CR/LF bytes removed
followed by exactly one newline; sending the same body twice produces two
identical frames. -/
theorem post_frame_eq_rstrip_body_append_newline (st : Option SerH) (b cps : List Nat)
    (hconn : connOpen st = true) (hdec : utf8Decode b = some cps) :
    (do_POST st (some (b.length : Int)) b true).written = some (rstripCRLF b ++ [10]) ∧
    framesOfTwoPosts st b = [rstripCRLF b ++ [10], rstripCRLF b ++ [10]] := by
  have hsend : toSendBytes b = rstripCRLF b ++ [10] := by
    unfold toSendBytes
    rw [hdec]
    dsimp only
    rw [utf8Encode_append, utf8Encode_singleton, ← rstripCRLF_utf8Encode,
      utf8Decode_encode hdec]
    rfl
  have hpost : do_POST st (some (b.length : Int)) b true =
      { status := 200, respBody := "Sent to device\n",
        written := some (rstripCRLF b ++ [10]), newState := st,
        cachedOpenAfter := some true } := by
    unfold do_POST
    rw [bodyFromRequest_exact, hconn]
    simp [hsend]
  refine ⟨by rw [hpost], ?_⟩
  unfold framesOfTwoPosts
  simp [hpost]

/-- Witness for C2 at body `b"AT"` over an open connection. -/
theorem post_frame_eq_rstrip_body_append_newline_witness :
    connOpen (some ⟨"COM3", true⟩) = true ∧ utf8Decode [65, 84] = some [65, 84] ∧
    (do_POST (some ⟨"COM3", true⟩) (some (([65, 84] : List Nat).length : Int))
      [65, 84] true).written = some (rstripCRLF [65, 84] ++ [10]) ∧
    framesOfTwoPosts (some ⟨"COM3", true⟩) [65, 84] =
      [rstripCRLF [65, 84] ++ [10], rstripCRLF [65, 84] ++ [10]] :=
  ⟨rfl, by decide,
    post_frame_eq_rstrip_body_append_newline (some ⟨"COM3", true⟩) [65, 84] [65, 84]
      rfl (by decide)⟩

/-! ## Claim C4: the probe timeout budget -/

/-- C4: `try_port_with_timeout` finishes within the absolute open-timeout
budget plus the hard-coded slack (the 0.2 s post-terminate join and the 0.1 s
poll window), and whenever the subprocess has not finished within the budget
it is terminated and the attempt reports a timeout failure. -/
theorem try_port_timeout_bound (w : WorkerRun) (port : String) (timeoutMs : Nat) :
    (try_port_with_timeout w port timeoutMs).2 ≤ timeoutMs + TERMINATE_JOIN_MS + POLL_MS ∧
    ((w.finishTime = none ∨ ∃ ft, w.finishTime = some ft ∧ timeoutMs < ft) →
      try_port_with_timeout w port timeoutMs =
        (.ok (false, "Timeout opening " ++ port), timeoutMs + TERMINATE_JOIN_MS)) := by
  unfold try_port_with_timeout
  cases hft : w.finishTime with
  | none =>
    refine ⟨by simp [TERMINATE_JOIN_MS, POLL_MS], fun _ => rfl⟩
  | some ft =>
    dsimp only
    by_cases hT : timeoutMs < ft
    · rw [if_pos hT]
      refine ⟨by simp [TERMINATE_JOIN_MS, POLL_MS], fun _ => rfl⟩
    · rw [if_neg hT]
      have hpoll : pipePoll (workerPipe w) = true := by
        simp [pipePoll, workerPipe]
      rw [if_pos hpoll]
      refine ⟨by simp [TERMINATE_JOIN_MS, POLL_MS]; omega, ?_⟩
      rintro (hnone | ⟨ft', hft', hlt⟩)
      · exact Option.noConfusion hnone
      · simp only [Option.some.injEq] at hft'
        subst hft'
        exact absurd hlt hT

/-- Witness for C4: a worker that never finishes, probed with the source's
1-second budget. -/
theorem try_port_timeout_bound_witness :
    (try_port_with_timeout ⟨none, none⟩ "COM3" OPEN_TIMEOUT_MS).2 ≤
      OPEN_TIMEOUT_MS + TERMINATE_JOIN_MS + POLL_MS ∧
    try_port_with_timeout ⟨none, none⟩ "COM3" OPEN_TIMEOUT_MS =
      (.ok (false, "Timeout opening " ++ "COM3"), OPEN_TIMEOUT_MS + TERMINATE_JOIN_MS) :=
  ⟨(try_port_timeout_bound ⟨none, none⟩ "COM3" OPEN_TIMEOUT_MS).1,
    (try_port_timeout_bound ⟨none, none⟩ "COM3" OPEN_TIMEOUT_MS).2 (Or.inl rfl)⟩

/-! ## Claim C10: the subprocess-dies-without-sending path -/

/-- C10 failing input: if the worker subprocess exits within the budget
without having sent a result (e.g. it crashed before `conn.send`), the
parent's `poll` reports readable because the child's pipe end is closed, and
`recv` raises `EOFError`, which `try_port_with_timeout` propagates instead of
returning the `(False, "No result ...")` pair. -/
theorem try_port_eof_raises :
    try_port_with_timeout ⟨some 0, none⟩ "COM3" OPEN_TIMEOUT_MS =
      (.error .eofError, 0) := rfl



/-! ## Claim C7: Bluetooth-looking ports are never probed -/

theorem isPrefixOf_eq_true_iff : ∀ (n h : List Char),
    n.isPrefixOf h = true ↔ ∃ t, h = n ++ t := by
  intro n
  induction n with
  | nil =>
    intro h
    constructor
    · intro _; exact ⟨h, rfl⟩
    · intro _; cases h <;> rfl
  | cons a as ih =>
    intro h
    cases h with
    | nil =>
      constructor
      · intro hc; exact absurd hc (by simp [List.isPrefixOf])
      · rintro ⟨t, ht⟩; exact absurd ht (by simp)
    | cons b bs =>
      constructor
      · intro hc
        simp only [List.isPrefixOf, Bool.and_eq_true, beq_iff_eq] at hc
        obtain ⟨rfl, hrest⟩ := hc
        obtain ⟨t, rfl⟩ := (ih bs).mp hrest
        exact ⟨t, rfl⟩
      · rintro ⟨t, ht⟩
        simp only [List.cons_append, List.cons.injEq] at ht
        obtain ⟨rfl, rfl⟩ := ht
        simp only [List.isPrefixOf, Bool.and_eq_true, beq_iff_eq]
        exact ⟨trivial, (ih _).mpr ⟨t, rfl⟩⟩

theorem containsSub_eq_true_iff (n : List Char) : ∀ h : List Char,
    containsSub n h = true ↔ ∃ pre post, h = pre ++ n ++ post := by
  intro h
  induction h with
  | nil =>
    simp only [containsSub, List.isEmpty_iff]
    constructor
    · rintro rfl; exact ⟨[], [], rfl⟩
    · rintro ⟨pre, post, hp⟩
      have hp' := hp.symm
      simp only [List.append_assoc, List.append_eq_nil] at hp'
      exact hp'.2.1
  | cons a t ih =>
    simp only [containsSub, Bool.or_eq_true, ih, isPrefixOf_eq_true_iff]
    constructor
    · rintro (⟨s, hs⟩ | ⟨pre, post, rfl⟩)
      · exact ⟨[], s, by simpa using hs⟩
      · exact ⟨a :: pre, post, rfl⟩
    · rintro ⟨pre, post, hp⟩
      cases pre with
      | nil => exact Or.inl ⟨post, by simpa using hp⟩
      | cons x xs =>
        simp only [List.cons_append, List.cons.injEq] at hp
        obtain ⟨rfl, hp⟩ := hp
        exact Or.inr ⟨xs, post, hp⟩

theorem joinSpace_decomp : ∀ (parts : List (List Char)) (d : List Char), d ∈ parts →
    ∃ x y, joinSpace parts = x ++ d ++ y := by
  intro parts
  induction parts with
  | nil => intro d hd; exact absurd hd (List.not_mem_nil d)
  | cons p ps ih =>
    intro d hd
    rcases List.mem_cons.mp hd with rfl | hd'
    · cases ps with
      | nil => exact ⟨[], [], by simp [joinSpace]⟩
      | cons q qs => exact ⟨[], ' ' :: joinSpace (q :: qs), by simp [joinSpace]⟩
    · cases ps with
      | nil => exact absurd hd' (List.not_mem_nil d)
      | cons q qs =>
        obtain ⟨x, y, hxy⟩ := ih d hd'
        refine ⟨p ++ ' ' :: x, y, ?_⟩
        simp [joinSpace, hxy]

theorem scanPorts_probed_not_bluetooth (probeOk openOk : PortInfo → Bool) :
    ∀ (ports : List PortInfo) (p : PortInfo),
      p ∈ (scanPorts probeOk openOk ports).1 → port_looks_like_bluetooth p = false := by
  intro ports
  induction ports with
  | nil => intro p hp; exact absurd hp (by simp [scanPorts])
  | cons q qs ih =>
    intro p hp
    unfold scanPorts at hp
    split at hp
    · exact ih p hp
    · rename_i hqblue
      split at hp
      · split at hp
        · rw [List.mem_singleton.mp hp]
          exact Bool.not_eq_true _ ▸ hqblue
        · rcases List.mem_cons.mp hp with rfl | hp'
          · exact Bool.not_eq_true _ ▸ hqblue
          · exact ih p hp'
      · rcases List.mem_cons.mp hp with rfl | hp'
        · exact Bool.not_eq_true _ ▸ hqblue
        · exact ih p hp'

/-- C7: a port whose description, hardware id or manufacturer contains a
configured skip pattern (case-insensitively) is never probed by any scanner
iteration, whatever the other ports, the probe outcomes, and the connection
state. -/
theorem bluetooth_port_never_probed (p : PortInfo) (pat : List Char)
    (hpat : pat ∈ SKIP_PATTERNS)
    (hmatch :
      (∃ pre post, lowerStr p.description = pre ++ lowerStr pat ++ post) ∨
      (∃ pre post, lowerStr p.hwid = pre ++ lowerStr pat ++ post) ∨
      (∃ pre post, lowerStr p.manufacturer = pre ++ lowerStr pat ++ post))
    (st : Option SerH) (ports : List PortInfo) (probeOk openOk : PortInfo → Bool) :
    p ∉ (scannerIteration st ports probeOk openOk).probed := by
  have hpatne : pat ≠ [] := by
    have h' : pat ∈ SKIP_PATTERNS := hpat
    simp only [SKIP_PATTERNS, List.mem_cons, List.not_mem_nil, or_false] at h'
    rcases h' with rfl | rfl | rfl | rfl <;> decide
  have key : ∀ f : List Char, f ∈ [p.description, p.hwid, p.manufacturer] →
      (∃ pre post, lowerStr f = pre ++ lowerStr pat ++ post) →
      containsSub (lowerStr pat) (portText p) = true := by
    rintro f hf ⟨pre, post, hdecomp⟩
    have hfne : ¬f.isEmpty := by
      intro hemp
      rw [List.isEmpty_iff] at hemp
      subst hemp
      have hlen := congrArg List.length hdecomp
      simp only [lowerStr, List.length_map, List.length_nil, List.length_append] at hlen
      have : pat.length = 0 := by omega
      exact hpatne (List.length_eq_zero.mp this)
    have hfmem : f ∈ ([p.description, p.hwid, p.manufacturer]).filter
        (fun s => !s.isEmpty) :=
      List.mem_filter.mpr ⟨hf, by simp only [Bool.not_eq_true']; exact Bool.not_eq_true _ ▸ hfne⟩
    obtain ⟨x, y, hxy⟩ := joinSpace_decomp _ f hfmem
    rw [containsSub_eq_true_iff]
    refine ⟨lowerStr x ++ pre, post ++ lowerStr y, ?_⟩
    unfold portText
    rw [hxy]
    simp only [lowerStr, List.map_append] at hdecomp ⊢
    rw [hdecomp]
    simp [List.append_assoc]
  have hblue : port_looks_like_bluetooth p = true := by
    unfold port_looks_like_bluetooth
    rw [List.any_eq_true]
    refine ⟨pat, hpat, ?_⟩
    rcases hmatch with h | h | h
    · exact key p.description (by simp) h
    · exact key p.hwid (by simp) h
    · exact key p.manufacturer (by simp) h
  unfold scannerIteration
  split
  · simp
  · intro hmem
    have := scanPorts_probed_not_bluetooth probeOk openOk ports p hmem
    rw [hblue] at this
    exact Bool.noConfusion this

/-- Witness for C7: a port whose description contains `Bluetooth` is not
probed even when every probe would succeed. -/
theorem bluetooth_port_never_probed_witness :
    ("Bluetooth".toList ∈ SKIP_PATTERNS) ∧
    (⟨"COM5".toList, "Standard Serial over Bluetooth link".toList, [], []⟩ : PortInfo) ∉
      (scannerIteration none
        [⟨"COM5".toList, "Standard Serial over Bluetooth link".toList, [], []⟩]
        (fun _ => true) (fun _ => true)).probed :=
  ⟨by decide,
    bluetooth_port_never_probed _ "Bluetooth".toList (by decide)
      (Or.inl ⟨"standard serial over ".toList, " link".toList, by decide⟩)
      none _ (fun _ => true) (fun _ => true)⟩

/-! ## Claim C3: the stored handle is unique and open -/

/-- C3: in every reachable connection state, the stored field references at
most one handle, and a stored handle is open — no lock-protected operation
(scanner install, POST write-failure teardown, shutdown close) leaves a
closed handle stored or a second handle installed. -/
theorem conn_state_handle_invariant (s : ConnState) (hr : ReachableConn s) :
    (∀ h, s.conn = some h → s.openh h = true) ∧
    (∀ h1 h2, s.conn = some h1 → s.conn = some h2 → h1 = h2) := by
  induction hr with
  | init =>
    exact ⟨fun h hh => Option.noConfusion hh, fun h1 h2 hh _ => Option.noConfusion hh⟩
  | step hr hst ih =>
    cases hst with
    | install h hfresh hnoopen =>
      refine ⟨?_, ?_⟩
      · intro h0 hh0
        simp only [Option.some.injEq] at hh0
        subst hh0
        simp [Function.update_same]
      · intro h1 h2 hh1 hh2
        simp only [Option.some.injEq] at hh1 hh2
        rw [← hh1, ← hh2]
    | postWriteFail c =>
      exact ⟨fun h hh => Option.noConfusion hh, fun h1 h2 hh _ => Option.noConfusion hh⟩
    | shutdownClose =>
      exact ⟨fun h hh => Option.noConfusion hh, fun h1 h2 hh _ => Option.noConfusion hh⟩

/-- Witness for C3: the state after the scanner installs handle 0 from the
initial state; the stored handle is open. -/
theorem conn_state_handle_invariant_witness :
    ConnState.openh
      { conn := some 0, openh := Function.update initialConn.openh 0 true } 0 = true :=
  (conn_state_handle_invariant
    { conn := some 0, openh := Function.update initialConn.openh 0 true }
    (ReachableConn.step ReachableConn.init
      (ConnStep.install initialConn 0 rfl (fun _ hh => Option.noConfusion hh)))).1 0 rfl


end Bridge
